import Mathlib

/-!
A verification development for the pothole mapping dashboard
(`src/FRONTEND/pothole-mapping-platform/src/App.jsx`).

Shallow-embedding conventions used throughout:

* JavaScript numbers that stay integral (the mulberry32 seed accumulator and
  its 32-bit pipeline) are embedded as `Nat` with explicit `% 2^32` wherever
  the source coerces through a bitwise operator or `Math.imul`.
* Other JavaScript numbers (coordinates, sizes, timestamps, the `rand()`
  outputs) are embedded as exact rationals `ℚ`; decimal literals of the
  source become the corresponding rationals.
* The external geometry library (turf) is out of scope per the design
  document ("treated as a trusted library"): `turf.distance` and
  `turf.booleanPointInPolygon` are embedded as function parameters
  (`dist`, `pip`).
* `Date.now()` is an ambient clock; it is embedded as a parameter
  (`now : Nat → ℚ`, indexed by the attempt counter at which it is read).
* Fallible external interactions (the geocode fetch) are embedded by a
  response datatype covering the failure and success shapes.
-/

namespace App

/-! ### The seeded pseudo-random generator (`mulberry32`, App.jsx lines 119-126) -/

/-- JavaScript `Math.imul`: the product of the operands' 32-bit values,
reduced mod 2^32 (the signed reinterpretation is congruent mod 2^32 and all
consumers reduce again, so the `Nat` representative is kept). -/
def imul32 (a b : Nat) : Nat := (a * b) % 4294967296

/-- One call of the closure returned by `mulberry32`: `seed += 0x6d2b79f5` is
exact float addition on integers (embedded as `Nat` addition); every value
flowing into a bitwise operator is coerced to its residue mod 2^32.
Returns (updated seed accumulator, 32-bit output word). -/
def mulberry32Step (seed : Nat) : Nat × Nat :=
  let s := seed + 0x6d2b79f5
  let t0 := s % 4294967296
  let t1 := imul32 (t0 ^^^ (t0 >>> 15)) (t0 ||| 1)
  let t2 := t1 ^^^ ((t1 + imul32 (t1 ^^^ (t1 >>> 7)) (t1 ||| 61)) % 4294967296)
  (s, t2 ^^^ (t2 >>> 14))

/-- Embeds `rand()`: the 32-bit word divided by 4294967296 (exact in ℚ, as it is in
binary64 for a 32-bit numerator). -/
def randStep (seed : Nat) : Nat × ℚ :=
  let p := mulberry32Step seed
  (p.1, (p.2 : ℚ) / 4294967296)

/-! ### Records and generator (App.jsx lines 9-17, 73-80, 128-156) -/

def SEVERITIES : List String := ["critical", "high", "medium", "low"]

def STATUSES : List String := ["pending", "inProgress", "repaired"]

/-- The `severityColors` object, as a lookup (the generator only reads the
four keys present; absent keys are embedded as `""`). -/
def severityColors (s : String) : String :=
  if s = "critical" then "#dc2626"
  else if s = "high" then "#ea580c"
  else if s = "medium" then "#f59e0b"
  else if s = "low" then "#84cc16"
  else ""

/-- A synthetic defect record as built by `buildInitialPotholes`.
`detected` is the millisecond timestamp held by the `Date` object. -/
structure Pothole where
  id : Nat
  lat : ℚ
  lng : ℚ
  severity : String
  status : String
  color : String
  size : ℚ
  detected : ℚ
deriving DecidableEq

/-- Embeds `withinMeters` (lines 73-76): `turf.distance` — an external geometry
primitive — is the parameter `dist`, taking the two `turf.point([lng, lat])`
coordinate pairs and returning kilometers. -/
def withinMeters (dist : ℚ × ℚ → ℚ × ℚ → ℚ) (a b : Pothole) (meters : ℚ) : Bool :=
  decide (dist (a.lng, a.lat) (b.lng, b.lat) * 1000 < meters)

/-- Embeds `existsWithinMeters` (lines 77-80): scan with early exit, i.e. `any`. -/
def existsWithinMeters (dist : ℚ × ℚ → ℚ × ℚ → ℚ) (list : List Pothole)
    (candidate : Pothole) (meters : ℚ) : Bool :=
  list.any fun p => withinMeters dist p candidate meters

/-- The generator's external collaborators: the turf distance function and
the ambient `Date.now()` clock, read at a given value of the attempt
counter. -/
structure GenEnv where
  dist : ℚ × ℚ → ℚ × ℚ → ℚ
  now : Nat → ℚ

def torontoLat : ℚ := 436532 / 10000

def torontoLng : ℚ := -793832 / 10000

/-- One loop iteration's candidate record (lines 139-152): six `rand()`
draws in source order (severity, status, size, detected, lat, lng).
`Math.floor` is `Int.floor`; the `rand()`-scaled products are exact in
binary64, so the rational floors agree with the source. Returns
(seed accumulator after the six draws, candidate). -/
def makeCandidate (env : GenEnv) (seed : Nat) (attempts : Nat) : Nat × Pothole :=
  let r1 := randStep seed
  let r2 := randStep r1.1
  let r3 := randStep r2.1
  let r4 := randStep r3.1
  let r5 := randStep r4.1
  let r6 := randStep r5.1
  let severity := SEVERITIES.getD (Int.floor (r1.2 * (SEVERITIES.length : ℚ))).toNat ""
  let status := STATUSES.getD (Int.floor (r2.2 * (STATUSES.length : ℚ))).toNat ""
  let size : ℚ := ((Int.floor (r3.2 * 40) : ℤ) : ℚ) + 10
  (r6.1,
    { id := attempts
      lat := torontoLat + (r5.2 - 1/2) * (15/100)
      lng := torontoLng + (r6.2 - 1/2) * (2/10)
      severity := severity
      status := status
      color := severityColors severity
      size := size
      detected := env.now attempts - r4.2 * (7 * 24 * 60 * 60 * 1000) })

def targetCount : Nat := 80

def maxAttempts : Nat := targetCount * 50

/-- The `while` loop of `buildInitialPotholes` (lines 137-154), embedded
with a fuel argument bounding the remaining iterations. Every iteration
consumes one attempt and the guard requires `attempts < maxAttempts`, so
`maxAttempts - attempts` bounds the remaining iterations: with at least that
much fuel the fuel case is unreachable and the function is the source's
unbounded loop (`genLoop_fuel_irrel` below makes this precise). The attempt
counter at exit is returned alongside the accepted records so that the
attempt budget can be spoken about. -/
def genLoop (env : GenEnv) : Nat → Nat → List Pothole → Nat → List Pothole × Nat
  | 0, _, items, attempts => (items, attempts)
  | fuel + 1, seed, items, attempts =>
    if items.length < targetCount ∧ attempts < maxAttempts then
      let a := attempts + 1
      let c := makeCandidate env seed a
      let items' := if existsWithinMeters env.dist items c.2 10 then items else items ++ [c.2]
      genLoop env fuel c.1 items' a
    else (items, attempts)

/-- Embeds `items.map((p, i) => ({ ...p, id: i }))`: an index-passing map, embedded
with an explicit running index. -/
def mapWithIndex (f : Nat → Pothole → Pothole) : Nat → List Pothole → List Pothole
  | _, [] => []
  | i, p :: t => f i p :: mapWithIndex f (i + 1) t

/-- Embeds `buildInitialPotholes` (lines 128-156) with the fixed seed 12345; the
loop starts at `attempts = 0`, so `maxAttempts` fuel suffices. -/
def buildInitialPotholes (env : GenEnv) : List Pothole :=
  mapWithIndex (fun i p => { p with id := i }) 0 (genLoop env maxAttempts 12345 [] 0).1

/-- Embeds `eraseDetected` forgets the one record field whose value depends on the
ambient clock; used to state in what sense the generator is deterministic. -/
def eraseDetected (p : Pothole) : Pothole := { p with detected := 0 }

/-! ### Name normalization (`normalize`, App.jsx lines 19-25) -/

/-- The combining-mark range stripped by `replace(/[̀-ͯ]/g, '')`. -/
def isCombiningMark (c : Char) : Bool := decide (0x300 ≤ c.toNat) && decide (c.toNat ≤ 0x36f)

/-- Embeds `String.prototype.toLowerCase`, on the character range where it is a
per-character ASCII case mapping. -/
def jsToLower (s : String) : String := ⟨s.data.map Char.toLower⟩

/-- Embeds `String.prototype.trim`: strip leading and trailing whitespace. -/
def jsTrim (s : String) : String :=
  ⟨((s.data.dropWhile Char.isWhitespace).reverse.dropWhile Char.isWhitespace).reverse⟩

/-- Embeds `normalize` (lines 19-25): lowercase, NFKD-decompose, strip combining
marks, trim. The Unicode NFKD decomposition step is embedded as the identity
map, which is exact on every string whose characters are their own NFKD
decomposition (in particular all of ASCII); the combining-mark strip and the
trim are embedded directly. -/
def normalize (s : String) : String :=
  jsTrim ⟨(jsToLower s).data.filter fun c => !isCombiningMark c⟩

/-- Embeds `String.prototype.includes`, first argument the string searched in:
does some contiguous run of `hay` start with `sub`? -/
def charsStartWith : List Char → List Char → Bool
  | _, [] => true
  | [], _ :: _ => false
  | a :: as, b :: bs => a == b && charsStartWith as bs

def charsContain (sub : List Char) : List Char → Bool
  | [] => charsStartWith [] sub
  | h :: t => charsStartWith (h :: t) sub || charsContain sub t

def jsIncludes (hay sub : String) : Bool := charsContain sub.data hay.data

/-! ### Boundary collection and point-in-polygon filtering
(App.jsx lines 57-64, 161-176, 178-206) -/

/-- A loaded GeoJSON value as consumed by `pointOnAnyPolygon`: either a
FeatureCollection or some other (single-geometry) object. The polygon
geometry itself is read only by the external `turf.booleanPointInPolygon`,
embedded as the parameter `pip`, keyed by the feature value. -/
inductive GeoFC (F : Type) where
  | featureCollection (features : List F)
  | other (f : F)

/-- Embeds `pointOnAnyPolygon` (lines 57-64): `!fc` (null) means `true`;
a FeatureCollection is scanned with `some`; any other object is tested
directly. The point is `turf.point([lng, lat])`. -/
def pointOnAnyPolygon {F : Type} (pip : ℚ × ℚ → F → Bool) (lat lng : ℚ)
    (fc : Option (GeoFC F)) : Bool :=
  match fc with
  | none => true
  | some (GeoFC.featureCollection fs) => fs.any fun f => pip (lng, lat) f
  | some (GeoFC.other f) => pip (lng, lat) f

/-! ### JavaScript `Set` and the selection toggle (App.jsx lines 87, 249-261,
432-439) -/

/-- A JavaScript `Set`: insertion-ordered and duplicate-free. -/
structure JsSet (α : Type) where
  elems : List α
  nodup : elems.Nodup

def JsSet.empty {α : Type} : JsSet α := ⟨[], List.nodup_nil⟩

def JsSet.single {α : Type} (a : α) : JsSet α := ⟨[a], List.nodup_singleton a⟩

/-- Embeds `Set.prototype.has`. -/
def JsSet.has {α : Type} [DecidableEq α] (s : JsSet α) (a : α) : Bool := s.elems.contains a

/-- Embeds `Set.prototype.size`. -/
def JsSet.size {α : Type} (s : JsSet α) : Nat := s.elems.length

instance {α : Type} [DecidableEq α] : DecidableEq (JsSet α) := fun a b =>
  if h : a.elems = b.elems then
    Decidable.isTrue (by cases a; cases b; cases h; rfl)
  else Decidable.isFalse fun hh => h (congrArg JsSet.elems hh)

/-- The selection update shared by the map click handler
(`onEachNeighborhood`, lines 249-261) and the filter-tab checkbox
(lines 432-439): if the clicked boundary is already the sole selection,
clear; otherwise select only it. -/
def selectToggle (prev : JsSet Nat) (idx : Nat) : JsSet Nat :=
  if prev.size == 1 && prev.has idx then JsSet.empty else JsSet.single idx

/-! ### Filter criteria (App.jsx lines 28-40, 90-105, 178-206, 214-229) -/

/-- The five values of the date-range select control. -/
inductive DateRange where
  | all
  | today
  | last7
  | last30
  | thisYear
deriving DecidableEq

/-- A numeric text input (the size bounds), classified by its JavaScript
`Number()` interpretation: the empty string (`Number('') = 0`, but the code
guards on `!== ''` first), a string parsing to the number `q`, or a
non-numeric string (`Number()` gives NaN). -/
inductive NumInput where
  | empty
  | num (q : ℚ)
  | nan
deriving DecidableEq

/-- Embeds `Number(input)` : `none` embeds NaN. -/
def NumInput.toNumber : NumInput → Option ℚ
  | NumInput.empty => some 0
  | NumInput.num q => some q
  | NumInput.nan => none

/-- JavaScript `<` on numbers: any comparison against NaN is false. -/
def jsLt (a : ℚ) : Option ℚ → Bool
  | some b => decide (a < b)
  | none => false

/-- JavaScript `>` on numbers: any comparison against NaN is false. -/
def jsGt (a : ℚ) : Option ℚ → Bool
  | some b => decide (b < a)
  | none => false

/-- The applied filter criteria (`selectedFilters`, lines 90-96):
severities and statuses are arrays. -/
structure Criteria where
  dateRange : DateRange
  severities : List String
  statuses : List String
  sizeMin : NumInput
  sizeMax : NumInput
deriving DecidableEq

/-- The draft filter inputs (`inputs`, lines 99-105): severities and
statuses are `Set`s. -/
structure FilterInputs where
  dateRange : DateRange
  severities : JsSet String
  statuses : JsSet String
  sizeMin : NumInput
  sizeMax : NumInput

/-- Embeds `dateInRange` (lines 28-40) compares the record's `Date` against four
cut-off instants derived from the ambient clock by calendar arithmetic
(`new Date(...)` constructions); the cut-offs are embedded as parameters and
the comparisons directly. `all` passes unconditionally before any clock
use. -/
structure ClockCtx where
  startOfToday : ℚ
  last7Start : ℚ
  last30Start : ℚ
  startOfYear : ℚ

def dateInRange (clock : ClockCtx) (detected : ℚ) : DateRange → Bool
  | DateRange.all => true
  | DateRange.today => decide (clock.startOfToday ≤ detected)
  | DateRange.last7 => decide (clock.last7Start ≤ detected)
  | DateRange.last30 => decide (clock.last30Start ≤ detected)
  | DateRange.thisYear => decide (clock.startOfYear ≤ detected)

/-- Embeds `activeNeighborhoods` (lines 181-184): with a loaded collection and a
non-empty selection, the features whose index is selected; otherwise null.
The application state holds either null or the fetched FeatureCollection,
so the collection is `Option (List F)`. -/
def activeNeighborhoods {F : Type} (fc : Option (List F)) (sel : JsSet Nat) :
    Option (List F) :=
  match fc with
  | some fs =>
      if sel.size > 0 then
        some (((fs.enum.filter fun x => sel.has x.1).map Prod.snd))
      else none
  | none => none

/-- Line 187: the record's point must lie on some polygon of the full
collection (when one is loaded). -/
def boundaryOk {F : Type} (pip : ℚ × ℚ → F → Bool) (fc : Option (List F))
    (p : Pothole) : Bool :=
  pointOnAnyPolygon pip p.lat p.lng (fc.map GeoFC.featureCollection)

/-- Lines 189-193: with an active selection, the point must lie inside a
selected boundary. -/
def selOk {F : Type} (pip : ℚ × ℚ → F → Bool) (fc : Option (List F))
    (sel : JsSet Nat) (p : Pothole) : Bool :=
  match activeNeighborhoods fc sel with
  | none => true
  | some act => act.any fun f => pip (p.lng, p.lat) f

/-- Line 196: a non-empty severity array must contain the record's
severity. -/
def sevOk (crit : Criteria) (p : Pothole) : Bool :=
  !(decide (crit.severities.length > 0) && !(crit.severities.contains p.severity))

/-- Line 197: same rule for statuses. -/
def statusOk (crit : Criteria) (p : Pothole) : Bool :=
  !(decide (crit.statuses.length > 0) && !(crit.statuses.contains p.status))

/-- Lines 199-201: `sizeMin !== '' && p.size < Number(sizeMin)` rejects. -/
def sizeMinOk (crit : Criteria) (p : Pothole) : Bool :=
  !(decide (crit.sizeMin ≠ NumInput.empty) && jsLt p.size crit.sizeMin.toNumber)

/-- Lines 200-202: `sizeMax !== '' && p.size > Number(sizeMax)` rejects. -/
def sizeMaxOk (crit : Criteria) (p : Pothole) : Bool :=
  !(decide (crit.sizeMax ≠ NumInput.empty) && jsGt p.size crit.sizeMax.toNumber)

/-- The predicate of the `potholes.filter` callback (lines 186-205): the
early-return chain as a conjunction of its tests, in source order. -/
def potholeVisible {F : Type} (pip : ℚ × ℚ → F → Bool) (clock : ClockCtx)
    (fc : Option (List F)) (sel : JsSet Nat) (crit : Criteria) (p : Pothole) : Bool :=
  boundaryOk pip fc p && selOk pip fc sel p &&
    dateInRange clock p.detected crit.dateRange &&
    sevOk crit p && statusOk crit p && sizeMinOk crit p && sizeMaxOk crit p

/-- Embeds `filteredPotholes` (lines 178-206). -/
def filteredPotholes {F : Type} (pip : ℚ × ℚ → F → Bool) (clock : ClockCtx)
    (fc : Option (List F)) (sel : JsSet Nat) (crit : Criteria)
    (potholes : List Pothole) : List Pothole :=
  potholes.filter (potholeVisible pip clock fc sel crit)

/-- The pure-attribute part of the visibility predicate (date, severity,
status and size tests); used to state that with no boundary collection the
spatial steps impose no restriction. -/
def attrVisible (clock : ClockCtx) (crit : Criteria) (p : Pothole) : Bool :=
  dateInRange clock p.detected crit.dateRange &&
    sevOk crit p && statusOk crit p && sizeMinOk crit p && sizeMaxOk crit p

/-! ### The search resolver (`handleSearch`, App.jsx lines 263-317) -/

/-- One entry of `neighborhoodIndex` (lines 161-176): a feature position
and its normalized display name. -/
structure IdxEntry where
  idx : Nat
  name : String
deriving DecidableEq

/-- One geocode result candidate; `lat`/`lon` hold `parseFloat` of the
string-encoded coordinates, `none` embedding NaN (an unparsable string). -/
structure GeoItem where
  lat : Option ℚ
  lon : Option ℚ

/-- Outcome of the geocode fetch: `failure` covers a network error, a
non-ok HTTP status and a JSON parse error (every `throw` path of the `try`);
`success` carries the parsed body, `none` embedding a non-array value
(`Array.isArray` fails). -/
inductive GeoResponse where
  | failure
  | success (results : Option (List GeoItem))

/-- A command the resolver sends to the map widget. -/
inductive ViewCmd where
  | fitBounds (idx : Nat)
  | flyTo (lat lon : ℚ) (zoom : Nat)
deriving DecidableEq

/-- The resolver's external collaborators: the built name index, the
geocoding service's behaviour for this query, whether the leaflet `map`
handle is non-null, and whether `L.geoJSON(feature).getBounds()` yields
valid bounds without throwing. -/
structure SearchEnv where
  index : List IdxEntry
  geo : GeoResponse
  mapPresent : Bool
  boundsValid : Nat → Bool

/-- What a `handleSearch` call does: the selection it leaves, the map
command it issues (if any) and how many geocode requests it sent. -/
structure SearchResult where
  selection : JsSet Nat
  view : Option ViewCmd
  geocodeCalls : Nat
deriving DecidableEq

/-- Embeds `handleSearch` (lines 263-317): normalize the query; empty is a no-op;
then exact name match, then first substring match, then the geocode
fallback whose failure is swallowed. -/
def handleSearch (env : SearchEnv) (searchQuery : String) (sel : JsSet Nat) :
    SearchResult :=
  let q := normalize searchQuery
  if q = "" then ⟨sel, none, 0⟩
  else
    match (if env.index.length > 0 then env.index.find? fun n => n.name == q else none) with
    | some e =>
        ⟨JsSet.single e.idx,
         if env.mapPresent && env.boundsValid e.idx then some (ViewCmd.fitBounds e.idx)
         else none,
         0⟩
    | none =>
      match (if env.index.length > 0 then env.index.find? fun n => jsIncludes n.name q
             else none) with
      | some e =>
          ⟨JsSet.single e.idx,
           if env.mapPresent && env.boundsValid e.idx then some (ViewCmd.fitBounds e.idx)
           else none,
           0⟩
      | none =>
        match env.geo with
        | GeoResponse.failure => ⟨sel, none, 1⟩
        | GeoResponse.success none => ⟨sel, none, 1⟩
        | GeoResponse.success (some results) =>
          match results.head? with
          | none => ⟨sel, none, 1⟩
          | some r =>
            match env.mapPresent, r.lat, r.lon with
            | true, some la, some lo => ⟨JsSet.empty, some (ViewCmd.flyTo la lo 13), 1⟩
            | _, _, _ => ⟨sel, none, 1⟩

/-! ### Application state and its transitions (App.jsx lines 82-117,
214-229, 249-261, 432-439) -/

/-- The state written by the operations the claims are about. -/
structure AppState where
  selectedNeighborhoodIds : JsSet Nat
  inputs : FilterInputs
  selectedFilters : Criteria

/-- Embeds `applyFilters` (lines 214-222): copy the draft into the applied
criteria; `Array.from` of a `Set` is its insertion-ordered element list. -/
def toApplied (i : FilterInputs) : Criteria :=
  { dateRange := i.dateRange
    severities := i.severities.elems
    statuses := i.statuses.elems
    sizeMin := i.sizeMin
    sizeMax := i.sizeMax }

def applyFilters (st : AppState) : AppState :=
  { st with selectedFilters := toApplied st.inputs }

/-- The `cleared` draft of `clearFilters` (line 225). -/
def clearedInputs : FilterInputs :=
  ⟨DateRange.today, JsSet.empty, JsSet.empty, NumInput.empty, NumInput.empty⟩

/-- The cleared applied criteria of `clearFilters` (line 227). -/
def clearedFilters : Criteria :=
  ⟨DateRange.today, [], [], NumInput.empty, NumInput.empty⟩

/-- Embeds `clearFilters` (lines 224-229): reset draft, applied criteria and the
boundary selection. -/
def clearFilters (st : AppState) : AppState :=
  { st with
    inputs := clearedInputs
    selectedFilters := clearedFilters
    selectedNeighborhoodIds := JsSet.empty }

/-- A draft edit: every filter-tab control calls `setInputs(s => ...)` with
some update function of the draft alone. -/
def setInputs (f : FilterInputs → FilterInputs) (st : AppState) : AppState :=
  { st with inputs := f st.inputs }

/-- The record set handed to the rendering layer: the filter applied to the
*applied* criteria and current selection. -/
def renderedPotholes {F : Type} (pip : ℚ × ℚ → F → Bool) (clock : ClockCtx)
    (fc : Option (List F)) (potholes : List Pothole) (st : AppState) : List Pothole :=
  filteredPotholes pip clock fc st.selectedNeighborhoodIds st.selectedFilters potholes

/-- The initial state (lines 87, 90-105). -/
def initialState : AppState :=
  { selectedNeighborhoodIds := JsSet.empty
    inputs := ⟨DateRange.all, JsSet.empty, JsSet.empty, NumInput.empty, NumInput.empty⟩
    selectedFilters := ⟨DateRange.all, [], [], NumInput.empty, NumInput.empty⟩ }

/-- The user-interface events that drive the state. -/
inductive Event where
  | mapToggle (idx : Nat)
  | search (env : SearchEnv) (query : String)
  | applyAct
  | clearAct
  | editDraft (f : FilterInputs → FilterInputs)

/-- The state transition for each event. -/
def step (st : AppState) : Event → AppState
  | Event.mapToggle i =>
      { st with selectedNeighborhoodIds := selectToggle st.selectedNeighborhoodIds i }
  | Event.search env q =>
      { st with selectedNeighborhoodIds :=
          (handleSearch env q st.selectedNeighborhoodIds).selection }
  | Event.applyAct => applyFilters st
  | Event.clearAct => clearFilters st
  | Event.editDraft f => setInputs f st

/-- The states reachable through the public interface. -/
inductive Reachable : AppState → Prop
  | init : Reachable initialState
  | next (st : AppState) (e : Event) : Reachable st → Reachable (step st e)

/-! ### Concrete stand-ins used by witnesses -/

/-- A concrete stand-in for the external distance function: every pair of
points is reported 1000 km apart (trivially symmetric). -/
def dFar : ℚ × ℚ → ℚ × ℚ → ℚ := fun _ _ => 1000

def samplePothole : Pothole :=
  { id := 0, lat := 0, lng := 0, severity := "critical", status := "pending"
    color := "#dc2626", size := 25, detected := 0 }

def sampleClock : ClockCtx := ⟨0, 0, 0, 0⟩

def defaultCriteria : Criteria := ⟨DateRange.all, [], [], NumInput.empty, NumInput.empty⟩

def wIndex : List IdxEntry := [⟨0, "kensington market"⟩]

def wEnvExact : SearchEnv := ⟨wIndex, GeoResponse.failure, false, fun _ => false⟩

def wGeoItem : GeoItem := ⟨some (4365/100), some (-7938/100)⟩

def wEnvGeo : SearchEnv := ⟨[], GeoResponse.success (some [wGeoItem]), true, fun _ => false⟩

/-- Both orientations of the 10 m proximity test fail: the pair is at least
the minimum separation apart. -/
def FarApart (dist : ℚ × ℚ → ℚ × ℚ → ℚ) (a b : Pothole) : Prop :=
  withinMeters dist a b 10 = false ∧ withinMeters dist b a 10 = false

/-! ### C7: the selection toggle -/

/-- C7 (amended): selecting a boundary that is already the sole selection
clears the selection; selecting in any other state yields the singleton of
that boundary; and from any state in which the boundary is *not* already the
sole selection, applying the same selection action twice returns the empty
selection. (The original claim asserted the double-application property from
every state; it fails exactly when the starting selection is already that
sole boundary, see the counterexample.) -/
theorem selectToggle_spec :
    (∀ (prev : JsSet Nat) (idx : Nat), (prev.size == 1 && prev.has idx) = true →
        selectToggle prev idx = JsSet.empty) ∧
    (∀ (prev : JsSet Nat) (idx : Nat), (prev.size == 1 && prev.has idx) = false →
        selectToggle prev idx = JsSet.single idx) ∧
    (∀ (prev : JsSet Nat) (idx : Nat), (prev.size == 1 && prev.has idx) = false →
        selectToggle (selectToggle prev idx) idx = JsSet.empty) := by
  refine ⟨?_, ?_, ?_⟩ <;> intro prev idx h
  · simp [selectToggle, h]
  · simp [selectToggle, h]
  · have h2 : selectToggle prev idx = JsSet.single idx := by simp [selectToggle, h]
    rw [h2]
    simp [selectToggle, JsSet.single, JsSet.size, JsSet.has, JsSet.empty]

theorem selectToggle_spec_witness :
    selectToggle (selectToggle JsSet.empty 3 ) 3 = JsSet.empty :=
  selectToggle_spec.2.2 JsSet.empty 3 (by decide)

/-- C7 counterexample: from the state in which boundary 0 is already the
sole selection, toggling it twice does not return the empty selection (the
first toggle clears, the second re-selects). -/
theorem selectToggle_twice_cx :
    ¬ selectToggle (selectToggle (JsSet.single 0) 0) 0 = JsSet.empty := by
  decide

/-! ### C8: draft versus applied criteria -/

/-- C8: draft edits never change the rendered record set; the apply action
copies the draft into the applied criteria (touching nothing else); the
clear action resets both the draft and the applied criteria to their
defaults. -/
theorem draft_vs_applied_spec :
    (∀ (F : Type) (pip : ℚ × ℚ → F → Bool) (clock : ClockCtx) (fc : Option (List F))
        (potholes : List Pothole) (st : AppState) (f : FilterInputs → FilterInputs),
        renderedPotholes pip clock fc potholes (setInputs f st)
          = renderedPotholes pip clock fc potholes st) ∧
    (∀ st : AppState, (applyFilters st).selectedFilters = toApplied st.inputs ∧
        (applyFilters st).inputs = st.inputs ∧
        (applyFilters st).selectedNeighborhoodIds = st.selectedNeighborhoodIds) ∧
    (∀ st : AppState, (clearFilters st).inputs = clearedInputs ∧
        (clearFilters st).selectedFilters = clearedFilters) :=
  ⟨fun _ _ _ _ _ _ _ => rfl, fun _ => ⟨rfl, rfl, rfl⟩, fun _ => ⟨rfl, rfl⟩⟩

/-! ### C10: the selection always has at most one element -/

lemma handleSearch_selection_cases (env : SearchEnv) (q : String) (sel : JsSet Nat) :
    (handleSearch env q sel).selection = sel ∨
    (handleSearch env q sel).selection = JsSet.empty ∨
    ∃ i, (handleSearch env q sel).selection = JsSet.single i := by
  rw [handleSearch]
  split
  · exact Or.inl rfl
  · split
    · exact Or.inr (Or.inr ⟨_, rfl⟩)
    · split
      · exact Or.inr (Or.inr ⟨_, rfl⟩)
      · split
        · exact Or.inl rfl
        · exact Or.inl rfl
        · split
          · exact Or.inl rfl
          · split
            · exact Or.inr (Or.inl rfl)
            · exact Or.inl rfl

/-- C10: every reachable state's boundary selection has at most one
element — each operation writing the selection produces the empty set or a
singleton, and the operations that leave it alone preserve the bound. -/
theorem selection_at_most_one (st : AppState) (h : Reachable st) :
    st.selectedNeighborhoodIds.size ≤ 1 := by
  induction h with
  | init => exact Nat.zero_le 1
  | next st e hr ih =>
    cases e with
    | mapToggle i =>
      show (selectToggle st.selectedNeighborhoodIds i).size ≤ 1
      rw [selectToggle]
      split
      · exact Nat.zero_le 1
      · exact Nat.le_refl 1
    | search env q =>
      show (handleSearch env q st.selectedNeighborhoodIds).selection.size ≤ 1
      rcases handleSearch_selection_cases env q st.selectedNeighborhoodIds with
        h1 | h1 | ⟨i, h1⟩
      · rw [h1]; exact ih
      · rw [h1]; exact Nat.zero_le 1
      · rw [h1]; exact Nat.le_refl 1
    | applyAct => exact ih
    | clearAct => exact Nat.zero_le 1
    | editDraft f => exact ih

theorem selection_at_most_one_witness :
    initialState.selectedNeighborhoodIds.size ≤ 1 :=
  selection_at_most_one initialState Reachable.init

/-! ### C3: the full-collection boundary membership step -/

/-- C3: a record whose point lies outside every polygon of a present
boundary collection is invisible — and hence excluded from the filtered
set — whatever the selection and the other criteria are; and with no
boundary collection (failed load) the membership step passes everything,
the whole spatial part imposing no restriction, the filter reducing to the
pure attribute tests (and, being a total function, it cannot throw). -/
theorem boundary_filter_spec :
    (∀ (F : Type) (pip : ℚ × ℚ → F → Bool) (clock : ClockCtx) (fs : List F)
        (sel : JsSet Nat) (crit : Criteria) (p : Pothole),
        (∀ f ∈ fs, pip (p.lng, p.lat) f = false) →
        potholeVisible pip clock (some fs) sel crit p = false ∧
          ∀ potholes : List Pothole,
            p ∉ filteredPotholes pip clock (some fs) sel crit potholes) ∧
    (∀ (F : Type) (pip : ℚ × ℚ → F → Bool) (clock : ClockCtx) (sel : JsSet Nat)
        (crit : Criteria) (p : Pothole),
        pointOnAnyPolygon pip p.lat p.lng none = true ∧
        potholeVisible pip clock (none : Option (List F)) sel crit p
          = attrVisible clock crit p) := by
  constructor
  · intro F pip clock fs sel crit p h
    have hb : boundaryOk pip (some fs) p = false := by
      simp only [boundaryOk, pointOnAnyPolygon, Option.map_some]
      simpa using h
    have hv : potholeVisible pip clock (some fs) sel crit p = false := by
      simp [potholeVisible, hb]
    refine ⟨hv, fun potholes hmem => ?_⟩
    rcases List.mem_filter.mp hmem with ⟨-, hvis⟩
    rw [hv] at hvis
    cases hvis
  · intro F pip clock sel crit p
    refine ⟨rfl, ?_⟩
    simp [potholeVisible, boundaryOk, pointOnAnyPolygon, selOk, activeNeighborhoods,
      attrVisible, Option.map_none]

theorem boundary_filter_spec_witness :
    potholeVisible (fun _ (_ : Nat) => false) sampleClock (some [0]) JsSet.empty
        defaultCriteria samplePothole = false ∧
      samplePothole ∉ filteredPotholes (fun _ (_ : Nat) => false) sampleClock (some [0])
        JsSet.empty defaultCriteria [samplePothole] := by
  have h := boundary_filter_spec.1 Nat (fun _ _ => false) sampleClock [0]
    JsSet.empty defaultCriteria samplePothole (by simp)
  exact ⟨h.1, h.2 [samplePothole]⟩

/-! ### C5: the attribute criteria as independent AND-combined predicates -/

/-- C5: an empty severity (or status) set imposes no restriction while a
non-empty one requires membership; a numeric minimum (maximum) size bound
requires size ≥ (≤) the bound; an unset or non-numeric bound imposes no
restriction; and the scenario: with criteria `{severities: ["critical"],
statuses: [], sizeMin: "20"}` the filter returns exactly the
critical-severity records of size at least 20, independent of status (and
of the selection, none being active without a boundary collection). -/
theorem attribute_filter_spec :
    (∀ (crit : Criteria) (p : Pothole), crit.severities = [] → sevOk crit p = true) ∧
    (∀ (crit : Criteria) (p : Pothole), crit.severities ≠ [] →
        (sevOk crit p = true ↔ p.severity ∈ crit.severities)) ∧
    (∀ (crit : Criteria) (p : Pothole), crit.statuses = [] → statusOk crit p = true) ∧
    (∀ (crit : Criteria) (p : Pothole), crit.statuses ≠ [] →
        (statusOk crit p = true ↔ p.status ∈ crit.statuses)) ∧
    (∀ (crit : Criteria) (p : Pothole) (m : ℚ), crit.sizeMin = NumInput.num m →
        (sizeMinOk crit p = true ↔ m ≤ p.size)) ∧
    (∀ (crit : Criteria) (p : Pothole),
        crit.sizeMin = NumInput.empty ∨ crit.sizeMin = NumInput.nan →
        sizeMinOk crit p = true) ∧
    (∀ (crit : Criteria) (p : Pothole) (m : ℚ), crit.sizeMax = NumInput.num m →
        (sizeMaxOk crit p = true ↔ p.size ≤ m)) ∧
    (∀ (crit : Criteria) (p : Pothole),
        crit.sizeMax = NumInput.empty ∨ crit.sizeMax = NumInput.nan →
        sizeMaxOk crit p = true) ∧
    (∀ (F : Type) (pip : ℚ × ℚ → F → Bool) (clock : ClockCtx) (sel : JsSet Nat)
        (records : List Pothole),
        filteredPotholes pip clock (none : Option (List F)) sel
            ⟨DateRange.all, ["critical"], [], NumInput.num 20, NumInput.empty⟩ records
          = records.filter fun p => decide (p.severity = "critical" ∧ 20 ≤ p.size)) := by
  refine ⟨?_, ?_, ?_, ?_, ?_, ?_, ?_, ?_, ?_⟩
  · intro crit p h; simp [sevOk, h]
  · intro crit p h; simp [sevOk, List.length_pos, h]
  · intro crit p h; simp [statusOk, h]
  · intro crit p h; simp [statusOk, List.length_pos, h]
  · intro crit p m h; simp [sizeMinOk, h, jsLt, NumInput.toNumber, not_lt]
  · intro crit p h
    rcases h with h | h <;> simp [sizeMinOk, h, jsLt, NumInput.toNumber]
  · intro crit p m h; simp [sizeMaxOk, h, jsGt, NumInput.toNumber, not_lt]
  · intro crit p h
    rcases h with h | h <;> simp [sizeMaxOk, h, jsGt, NumInput.toNumber]
  · intro F pip clock sel records
    unfold filteredPotholes
    refine List.filter_congr fun p _ => ?_
    simp only [potholeVisible, boundaryOk, pointOnAnyPolygon, selOk, activeNeighborhoods,
      dateInRange, sevOk, statusOk, sizeMinOk, sizeMaxOk, jsLt, jsGt, NumInput.toNumber,
      Option.map_none]
    rw [Bool.eq_iff_iff]
    simp [not_lt]

/-! ### C4 and C6: the search resolver and the geocode fallback -/

lemma whitespace_toLower {c : Char} (h : c.isWhitespace) : c.toLower = c := by
  simp [Char.isWhitespace] at h
  rcases h with ((h | h) | h) | h <;> subst h <;> decide

lemma whitespace_not_mark {c : Char} (h : c.isWhitespace) : isCombiningMark c = false := by
  simp [Char.isWhitespace] at h
  rcases h with ((h | h) | h) | h <;> subst h <;> decide

/-- A query consisting of whitespace alone normalizes to the empty
string. -/
lemma normalize_of_whitespace (s : String) (h : ∀ c ∈ s.data, c.isWhitespace) :
    normalize s = "" := by
  have hl : ∀ c ∈ ((jsToLower s).data.filter fun c => !isCombiningMark c),
      c.isWhitespace = true := by
    intro c hc
    rcases List.mem_filter.mp hc with ⟨hc1, -⟩
    simp only [jsToLower, List.mem_map] at hc1
    obtain ⟨a, ha, rfl⟩ := hc1
    rw [whitespace_toLower (h a ha)]
    exact h a ha
  show jsTrim _ = ""
  unfold jsTrim
  have h2 : (((jsToLower s).data.filter fun c => !isCombiningMark c).dropWhile
      Char.isWhitespace) = [] := by
    rw [List.dropWhile_eq_nil_iff]
    exact hl
  show (⟨_⟩ : String) = ""
  rw [show ((⟨(jsToLower s).data.filter fun c => !isCombiningMark c⟩ : String).data
        = (jsToLower s).data.filter fun c => !isCombiningMark c) from rfl, h2]
  rfl

/-- Shared case analysis: `handleSearch` sends at most one geocode
request. -/
lemma handleSearch_calls_le_one (env : SearchEnv) (q : String) (sel : JsSet Nat) :
    (handleSearch env q sel).geocodeCalls ≤ 1 := by
  rw [handleSearch]
  split
  · exact Nat.zero_le 1
  · split
    · exact Nat.zero_le 1
    · split
      · exact Nat.zero_le 1
      · split
        · exact Nat.le_refl 1
        · exact Nat.le_refl 1
        · split
          · exact Nat.le_refl 1
          · split
            · exact Nat.le_refl 1
            · exact Nat.le_refl 1

/-- C4: the resolver's strict priority order. An all-whitespace (or empty)
query changes nothing and sends no geocode request; an exact
normalized-name match selects exactly that boundary with no geocode
request; otherwise the first substring match in index order is selected
with no geocode request; otherwise exactly one geocode request is sent. -/
theorem search_resolver_spec :
    (∀ (env : SearchEnv) (sel : JsSet Nat) (query : String),
        (∀ c ∈ query.data, c.isWhitespace) →
        handleSearch env query sel = ⟨sel, none, 0⟩) ∧
    (∀ (env : SearchEnv) (sel : JsSet Nat) (query : String) (e : IdxEntry),
        normalize query ≠ "" →
        (if env.index.length > 0 then
            env.index.find? fun n => n.name == normalize query
          else none) = some e →
        (handleSearch env query sel).selection = JsSet.single e.idx ∧
          (handleSearch env query sel).geocodeCalls = 0) ∧
    (∀ (env : SearchEnv) (sel : JsSet Nat) (query : String) (e : IdxEntry),
        normalize query ≠ "" →
        (if env.index.length > 0 then
            env.index.find? fun n => n.name == normalize query
          else none) = none →
        (if env.index.length > 0 then
            env.index.find? fun n => jsIncludes n.name (normalize query)
          else none) = some e →
        (handleSearch env query sel).selection = JsSet.single e.idx ∧
          (handleSearch env query sel).geocodeCalls = 0) ∧
    (∀ (env : SearchEnv) (sel : JsSet Nat) (query : String),
        normalize query ≠ "" →
        (if env.index.length > 0 then
            env.index.find? fun n => n.name == normalize query
          else none) = none →
        (if env.index.length > 0 then
            env.index.find? fun n => jsIncludes n.name (normalize query)
          else none) = none →
        (handleSearch env query sel).geocodeCalls = 1) := by
  refine ⟨?_, ?_, ?_, ?_⟩
  · intro env sel query h
    simp only [handleSearch]
    rw [normalize_of_whitespace query h, if_pos rfl]
  · intro env sel query e hq hfind
    simp only [handleSearch]
    rw [if_neg hq, hfind]
    exact ⟨rfl, rfl⟩
  · intro env sel query e hq hexact hfuzzy
    simp only [handleSearch]
    rw [if_neg hq, hexact, hfuzzy]
    exact ⟨rfl, rfl⟩
  · intro env sel query hq hexact hfuzzy
    simp only [handleSearch]
    rw [if_neg hq, hexact, hfuzzy]
    cases env.geo with
    | failure => rfl
    | success o =>
      cases o with
      | none => rfl
      | some results =>
        cases results with
        | nil => rfl
        | cons r rest =>
          obtain ⟨la, lo⟩ := r
          cases env.mapPresent <;> cases la <;> cases lo <;> rfl

theorem search_resolver_spec_witness :
    (handleSearch wEnvExact "Kensington Market" JsSet.empty).selection
        = JsSet.single 0 ∧
      (handleSearch wEnvExact "Kensington Market" JsSet.empty).geocodeCalls = 0 :=
  search_resolver_spec.2.1 wEnvExact JsSet.empty "Kensington Market"
    ⟨0, "kensington market"⟩ (by decide) (by decide)

/-- C6: when the resolver reaches the geocode fallback, a failed request
(network error, bad HTTP status, parse error) is swallowed: the result keeps
the selection, issues no map command, and — at the state level — the whole
application state (selection, draft and applied filters) is exactly as
before; a response whose first candidate has an unparsable coordinate
likewise changes nothing; at most one request is ever sent (no retry); and
on a successful response with a valid coordinate and a live map handle the
boundary selection is cleared and the view recenters on that coordinate at
zoom 13. -/
theorem geocode_fallback_spec :
    (∀ (env : SearchEnv) (sel : JsSet Nat) (query : String),
        normalize query ≠ "" →
        (if env.index.length > 0 then
            env.index.find? fun n => n.name == normalize query
          else none) = none →
        (if env.index.length > 0 then
            env.index.find? fun n => jsIncludes n.name (normalize query)
          else none) = none →
        env.geo = GeoResponse.failure →
        handleSearch env query sel = ⟨sel, none, 1⟩) ∧
    (∀ (st : AppState) (env : SearchEnv) (query : String),
        normalize query ≠ "" →
        (if env.index.length > 0 then
            env.index.find? fun n => n.name == normalize query
          else none) = none →
        (if env.index.length > 0 then
            env.index.find? fun n => jsIncludes n.name (normalize query)
          else none) = none →
        env.geo = GeoResponse.failure →
        step st (Event.search env query) = st) ∧
    (∀ (env : SearchEnv) (sel : JsSet Nat) (query : String) (r : GeoItem)
        (rest : List GeoItem),
        normalize query ≠ "" →
        (if env.index.length > 0 then
            env.index.find? fun n => n.name == normalize query
          else none) = none →
        (if env.index.length > 0 then
            env.index.find? fun n => jsIncludes n.name (normalize query)
          else none) = none →
        env.geo = GeoResponse.success (some (r :: rest)) →
        (r.lat = none ∨ r.lon = none) →
        handleSearch env query sel = ⟨sel, none, 1⟩) ∧
    (∀ (env : SearchEnv) (sel : JsSet Nat) (query : String),
        (handleSearch env query sel).geocodeCalls ≤ 1) ∧
    (∀ (env : SearchEnv) (sel : JsSet Nat) (query : String) (r : GeoItem)
        (rest : List GeoItem) (la lo : ℚ),
        normalize query ≠ "" →
        (if env.index.length > 0 then
            env.index.find? fun n => n.name == normalize query
          else none) = none →
        (if env.index.length > 0 then
            env.index.find? fun n => jsIncludes n.name (normalize query)
          else none) = none →
        env.geo = GeoResponse.success (some (r :: rest)) →
        env.mapPresent = true → r.lat = some la → r.lon = some lo →
        handleSearch env query sel
          = ⟨JsSet.empty, some (ViewCmd.flyTo la lo 13), 1⟩) := by
  have key : ∀ (env : SearchEnv) (sel : JsSet Nat) (query : String),
      normalize query ≠ "" →
      (if env.index.length > 0 then
          env.index.find? fun n => n.name == normalize query
        else none) = none →
      (if env.index.length > 0 then
          env.index.find? fun n => jsIncludes n.name (normalize query)
        else none) = none →
      env.geo = GeoResponse.failure →
      handleSearch env query sel = ⟨sel, none, 1⟩ := by
    intro env sel query hq hexact hfuzzy hgeo
    simp only [handleSearch]
    rw [if_neg hq, hexact, hfuzzy, hgeo]
  refine ⟨key, ?_, ?_, ?_, ?_⟩
  · intro st env query hq hexact hfuzzy hgeo
    show { st with selectedNeighborhoodIds :=
        (handleSearch env query st.selectedNeighborhoodIds).selection } = st
    rw [key env st.selectedNeighborhoodIds query hq hexact hfuzzy hgeo]
  · intro env sel query r rest hq hexact hfuzzy hgeo hnan
    simp only [handleSearch]
    rw [if_neg hq, hexact, hfuzzy, hgeo]
    obtain ⟨la, lo⟩ := r
    rcases hnan with h | h
    · have h' : la = none := h
      subst h'
      cases env.mapPresent <;> cases lo <;> rfl
    · have h' : lo = none := h
      subst h'
      cases env.mapPresent <;> cases la <;> rfl
  · exact fun env sel query => handleSearch_calls_le_one env query sel
  · intro env sel query r rest la lo hq hexact hfuzzy hgeo hmap hla hlo
    obtain ⟨la', lo'⟩ := r
    have h1 : la' = some la := hla
    have h2 : lo' = some lo := hlo
    subst h1
    subst h2
    simp only [handleSearch]
    rw [if_neg hq, hexact, hfuzzy, hgeo, hmap]
    rfl

theorem geocode_fallback_spec_witness :
    handleSearch wEnvGeo "M5V 2T6" (JsSet.single 5)
      = ⟨JsSet.empty, some (ViewCmd.flyTo (4365/100) (-7938/100) 13), 1⟩ :=
  geocode_fallback_spec.2.2.2.2 wEnvGeo (JsSet.single 5) "M5V 2T6" wGeoItem []
    (4365/100) (-7938/100) (by decide) rfl rfl rfl rfl rfl rfl

theorem attribute_filter_spec_witness :
    sizeMinOk ⟨DateRange.all, [], [], NumInput.num 20, NumInput.empty⟩ samplePothole
        = true ∧ (20 : ℚ) ≤ samplePothole.size :=
  ⟨(attribute_filter_spec.2.2.2.2.1
      ⟨DateRange.all, [], [], NumInput.num 20, NumInput.empty⟩ samplePothole 20 rfl).mpr
      (by norm_num [samplePothole]),
    by norm_num [samplePothole]⟩

/-! ### Generator lemmas (C1, C2, C9) -/

/-- The fuel never runs out before the loop guard fails: with fuel at least
`maxAttempts - attempts` the embedded loop equals the source's unbounded
`while` loop (any two sufficient fuels give the same result). -/
lemma genLoop_fuel_irrel (env : GenEnv) :
    ∀ (fuel fuel' seed attempts : Nat) (items : List Pothole),
      maxAttempts - attempts ≤ fuel → maxAttempts - attempts ≤ fuel' →
      genLoop env fuel seed items attempts = genLoop env fuel' seed items attempts := by
  intro fuel
  induction fuel with
  | zero =>
    intro fuel' seed attempts items hf hf'
    have ha : ¬ attempts < maxAttempts := by omega
    cases fuel' with
    | zero => rfl
    | succ m =>
      rw [genLoop, genLoop, if_neg]
      intro hc
      exact ha hc.2
  | succ n ih =>
    intro fuel' seed attempts items hf hf'
    cases fuel' with
    | zero =>
      have ha : ¬ attempts < maxAttempts := by omega
      rw [genLoop, genLoop, if_neg]
      intro hc
      exact ha hc.2
    | succ m =>
      rw [genLoop]
      conv_rhs => rw [genLoop]
      by_cases hc : items.length < targetCount ∧ attempts < maxAttempts
      · rw [if_pos hc, if_pos hc]
        exact ih m _ _ _ (by omega) (by omega)
      · rw [if_neg hc, if_neg hc]

lemma withinMeters_symm (d : ℚ × ℚ → ℚ × ℚ → ℚ) (hsym : ∀ x y, d x y = d y x)
    (a b : Pothole) (m : ℚ) : withinMeters d a b m = withinMeters d b a m := by
  unfold withinMeters
  rw [hsym]

lemma existsWithinMeters_eq_false {d : ℚ × ℚ → ℚ × ℚ → ℚ} {l : List Pothole}
    {c : Pothole} {m : ℚ} (h : existsWithinMeters d l c m = false) :
    ∀ p ∈ l, withinMeters d p c m = false := by
  intro p hp
  have h2 := List.any_eq_false.mp h p hp
  simpa using h2

lemma genLoop_pairwise (env : GenEnv) (hsym : ∀ x y, env.dist x y = env.dist y x) :
    ∀ (fuel seed attempts : Nat) (items : List Pothole),
      items.Pairwise (FarApart env.dist) →
      ((genLoop env fuel seed items attempts).1).Pairwise (FarApart env.dist) := by
  intro fuel
  induction fuel with
  | zero => intro seed attempts items hp; exact hp
  | succ n ih =>
    intro seed attempts items hp
    simp only [genLoop]
    split
    · apply ih
      split
      · exact hp
      · rename_i hex
        rw [Bool.not_eq_true] at hex
        rw [List.pairwise_append]
        refine ⟨hp, List.pairwise_singleton _ _, ?_⟩
        intro a ha b hb
        rw [List.mem_singleton] at hb
        subst hb
        exact ⟨existsWithinMeters_eq_false hex a ha,
          (withinMeters_symm env.dist hsym _ _ 10).trans
            (existsWithinMeters_eq_false hex a ha)⟩
    · exact hp

/-- Embeds `FarApart` only reads coordinates, so the id-reassigning map preserves
it. -/
lemma mem_mapWithIndex {f : Nat → Pothole → Pothole} :
    ∀ {l : List Pothole} {j : Nat} {b : Pothole}, b ∈ mapWithIndex f j l →
      ∃ k p, p ∈ l ∧ b = f k p := by
  intro l
  induction l with
  | nil => intro j b h; cases h
  | cons a t ih =>
    intro j b h
    rw [mapWithIndex, List.mem_cons] at h
    rcases h with h | h
    · exact ⟨j, a, List.mem_cons_self a t, h⟩
    · obtain ⟨k, p, hp, hb⟩ := ih h
      exact ⟨k, p, List.mem_cons_of_mem a hp, hb⟩

lemma pairwise_mapWithIndex (d : ℚ × ℚ → ℚ × ℚ → ℚ) :
    ∀ (l : List Pothole) (j : Nat), l.Pairwise (FarApart d) →
      (mapWithIndex (fun i p => { p with id := i }) j l).Pairwise (FarApart d) := by
  intro l
  induction l with
  | nil => intro j hp; exact List.Pairwise.nil
  | cons a t ih =>
    intro j hp
    rw [List.pairwise_cons] at hp
    rw [mapWithIndex, List.pairwise_cons]
    refine ⟨?_, ih (j + 1) hp.2⟩
    intro b hb
    obtain ⟨k, p, hpmem, rfl⟩ := mem_mapWithIndex hb
    exact hp.1 p hpmem

/-- C2: for any symmetric distance function (the haversine great-circle
distance of the design is symmetric), every pair of distinct generated
records fails the 10 m proximity test in both orientations: no two
generated records are closer than the minimum separation distance. -/
theorem generator_min_separation (d : ℚ × ℚ → ℚ × ℚ → ℚ) (now : Nat → ℚ)
    (hsym : ∀ x y, d x y = d y x) :
    (buildInitialPotholes ⟨d, now⟩).Pairwise (FarApart d) := by
  unfold buildInitialPotholes
  exact pairwise_mapWithIndex d _ 0
    (genLoop_pairwise ⟨d, now⟩ hsym maxAttempts 12345 0 [] List.Pairwise.nil)

theorem generator_min_separation_witness :
    (buildInitialPotholes ⟨dFar, fun _ => 0⟩).Pairwise (FarApart dFar) :=
  generator_min_separation dFar (fun _ => 0) (fun _ _ => rfl)

lemma genLoop_budget (env : GenEnv) :
    ∀ (fuel seed attempts : Nat) (items : List Pothole),
      items.length ≤ targetCount → attempts ≤ maxAttempts →
      maxAttempts - attempts ≤ fuel →
      (genLoop env fuel seed items attempts).1.length ≤ targetCount ∧
        (genLoop env fuel seed items attempts).2 ≤ maxAttempts ∧
        ((genLoop env fuel seed items attempts).1.length = targetCount ∨
          (genLoop env fuel seed items attempts).2 = maxAttempts) := by
  intro fuel
  induction fuel with
  | zero =>
    intro seed attempts items hlen hatt hf
    have ha : attempts = maxAttempts := by omega
    rw [genLoop]
    exact ⟨hlen, Nat.le_of_eq ha, Or.inr ha⟩
  | succ n ih =>
    intro seed attempts items hlen hatt hf
    simp only [genLoop]
    split
    · rename_i hc
      apply ih
      · split
        · exact hlen
        · rw [List.length_append, List.length_singleton]
          omega
      · omega
      · omega
    · rename_i hc
      refine ⟨hlen, hatt, ?_⟩
      show items.length = targetCount ∨ attempts = maxAttempts
      rcases not_and_or.mp hc with h | h
      · exact Or.inl (by omega)
      · exact Or.inr (by omega)

lemma length_mapWithIndex (f : Nat → Pothole → Pothole) :
    ∀ (l : List Pothole) (j : Nat), (mapWithIndex f j l).length = l.length := by
  intro l
  induction l with
  | nil => intro j; rfl
  | cons a t ih =>
    intro j
    rw [mapWithIndex, List.length_cons, List.length_cons, ih]

lemma mapWithIndex_id_get :
    ∀ (l : List Pothole) (j i : Nat)
      (h : i < (mapWithIndex (fun i p => { p with id := i }) j l).length),
      ((mapWithIndex (fun i p => { p with id := i }) j l).get ⟨i, h⟩).id = j + i := by
  intro l
  induction l with
  | nil =>
    intro j i h
    rw [length_mapWithIndex] at h
    cases h
  | cons a t ih =>
    intro j i h
    cases i with
    | zero => rfl
    | succ k =>
      have hk : k < (mapWithIndex (fun i p => { p with id := i }) (j + 1) t).length := by
        have := h
        rw [length_mapWithIndex] at this ⊢
        rw [List.length_cons] at this
        omega
      have := ih (j + 1) k hk
      calc ((mapWithIndex (fun i p => { p with id := i }) j (a :: t)).get
              ⟨k + 1, h⟩).id
          = ((mapWithIndex (fun i p => { p with id := i }) (j + 1) t).get ⟨k, hk⟩).id := rfl
        _ = (j + 1) + k := this
        _ = j + (k + 1) := by omega

/-- C9: the generator accepts candidates until exactly 80 records are
accepted or the 50×80 = 4000 attempt budget is exhausted (in which case it
returns fewer than 80 records, still without error, the function being
total); afterwards identifiers are reassigned densely: the record at
position i of the returned list has id i, whatever was rejected. -/
theorem generator_budget_and_ids (env : GenEnv) :
    (buildInitialPotholes env).length ≤ 80 ∧
      ((buildInitialPotholes env).length = 80 ∨
        (genLoop env maxAttempts 12345 [] 0).2 = 4000) ∧
      ∀ i : Fin (buildInitialPotholes env).length,
        ((buildInitialPotholes env).get i).id = i.val := by
  have hb := genLoop_budget env maxAttempts 12345 0 [] (Nat.zero_le _) (Nat.zero_le _)
    (Nat.le_refl _)
  have hlen : (buildInitialPotholes env).length
      = (genLoop env maxAttempts 12345 [] 0).1.length :=
    length_mapWithIndex _ _ 0
  refine ⟨?_, ?_, ?_⟩
  · rw [hlen]
    exact hb.1
  · rcases hb.2.2 with h | h
    · exact Or.inl (by rw [hlen]; exact h)
    · exact Or.inr h
  · intro i
    have := mapWithIndex_id_get (genLoop env maxAttempts 12345 [] 0).1 0 i.val i.isLt
    simpa using this

/-! ### C1: determinism of the generator -/

lemma withinMeters_congr (d : ℚ × ℚ → ℚ × ℚ → ℚ) {a a' b b' : Pothole}
    (ha : eraseDetected a = eraseDetected a') (hb : eraseDetected b = eraseDetected b')
    (m : ℚ) : withinMeters d a b m = withinMeters d a' b' m := by
  have g1 : (eraseDetected a).lng = (eraseDetected a').lng := congrArg Pothole.lng ha
  have g2 : (eraseDetected a).lat = (eraseDetected a').lat := congrArg Pothole.lat ha
  have g3 : (eraseDetected b).lng = (eraseDetected b').lng := congrArg Pothole.lng hb
  have g4 : (eraseDetected b).lat = (eraseDetected b').lat := congrArg Pothole.lat hb
  have h1 : a.lng = a'.lng := g1
  have h2 : a.lat = a'.lat := g2
  have h3 : b.lng = b'.lng := g3
  have h4 : b.lat = b'.lat := g4
  unfold withinMeters
  rw [h1, h2, h3, h4]

lemma existsWithinMeters_congr (d : ℚ × ℚ → ℚ × ℚ → ℚ) {c c' : Pothole}
    (hc : eraseDetected c = eraseDetected c') (m : ℚ) :
    ∀ {l l' : List Pothole}, l.map eraseDetected = l'.map eraseDetected →
      existsWithinMeters d l c m = existsWithinMeters d l' c' m := by
  intro l
  induction l with
  | nil =>
    intro l' h
    cases l' with
    | nil => rfl
    | cons a t => simp at h
  | cons a t ih =>
    intro l' h
    cases l' with
    | nil => simp at h
    | cons a' t' =>
      simp only [List.map_cons, List.cons.injEq] at h
      obtain ⟨h1, h2⟩ := h
      simp only [existsWithinMeters, List.any_cons]
      rw [withinMeters_congr d h1 hc m]
      have htail := ih h2
      simp only [existsWithinMeters] at htail
      rw [htail]

lemma genLoop_erase (d : ℚ × ℚ → ℚ × ℚ → ℚ) (now₁ now₂ : Nat → ℚ) :
    ∀ (fuel seed attempts : Nat) (items₁ items₂ : List Pothole),
      items₁.map eraseDetected = items₂.map eraseDetected →
      ((genLoop ⟨d, now₁⟩ fuel seed items₁ attempts).1).map eraseDetected
        = ((genLoop ⟨d, now₂⟩ fuel seed items₂ attempts).1).map eraseDetected := by
  intro fuel
  induction fuel with
  | zero => intro seed attempts items₁ items₂ h; exact h
  | succ n ih =>
    intro seed attempts items₁ items₂ h
    have hlen : items₁.length = items₂.length := by
      have h2 := congrArg List.length h
      simpa using h2
    simp only [genLoop]
    by_cases hc : items₁.length < targetCount ∧ attempts < maxAttempts
    · rw [if_pos hc, if_pos (show items₂.length < targetCount ∧ attempts < maxAttempts from
        ⟨hlen ▸ hc.1, hc.2⟩)]
      rw [show (makeCandidate ⟨d, now₂⟩ seed (attempts + 1)).1
          = (makeCandidate ⟨d, now₁⟩ seed (attempts + 1)).1 from rfl]
      apply ih
      have hcand : eraseDetected (makeCandidate ⟨d, now₁⟩ seed (attempts + 1)).2
          = eraseDetected (makeCandidate ⟨d, now₂⟩ seed (attempts + 1)).2 := rfl
      have hex : existsWithinMeters (GenEnv.dist ⟨d, now₁⟩) items₁
            (makeCandidate ⟨d, now₁⟩ seed (attempts + 1)).2 10
          = existsWithinMeters (GenEnv.dist ⟨d, now₂⟩) items₂
            (makeCandidate ⟨d, now₂⟩ seed (attempts + 1)).2 10 :=
        existsWithinMeters_congr d hcand 10 h
      rw [hex]
      split
      · exact h
      · simp only [List.map_append, List.map_cons, List.map_nil]
        rw [h, hcand]
    · rw [if_neg hc, if_neg (show ¬(items₂.length < targetCount ∧ attempts < maxAttempts) by
        rw [← hlen]; exact hc)]
      exact h

lemma mapWithIndex_erase :
    ∀ (l₁ l₂ : List Pothole) (j : Nat), l₁.map eraseDetected = l₂.map eraseDetected →
      (mapWithIndex (fun i p => { p with id := i }) j l₁).map eraseDetected
        = (mapWithIndex (fun i p => { p with id := i }) j l₂).map eraseDetected := by
  intro l₁
  induction l₁ with
  | nil =>
    intro l₂ j h
    cases l₂ with
    | nil => rfl
    | cons a t => simp at h
  | cons a t ih =>
    intro l₂ j h
    cases l₂ with
    | nil => simp at h
    | cons a' t' =>
      simp only [List.map_cons, List.cons.injEq] at h
      obtain ⟨h1, h2⟩ := h
      simp only [mapWithIndex, List.map_cons, List.cons.injEq]
      refine ⟨?_, ih t' (j + 1) h2⟩
      have e1 : eraseDetected { a with id := j } = { eraseDetected a with id := j } := rfl
      have e2 : eraseDetected { a' with id := j } = { eraseDetected a' with id := j } := rfl
      rw [e1, e2, h1]

/-- C1 (amended): for the fixed seed 12345 the generator is deterministic in
everything except the detection timestamps — two runs, whatever their clock
readings, produce record sequences of the same length that agree field by
field on id, latitude, longitude, severity, status, size and color; the
detection timestamp equals the run's clock reading minus a seed-determined
offset, so it coincides between two runs exactly when their clocks do. -/
theorem generator_deterministic_up_to_clock (d : ℚ × ℚ → ℚ × ℚ → ℚ)
    (now₁ now₂ : Nat → ℚ) :
    (buildInitialPotholes ⟨d, now₁⟩).map eraseDetected
      = (buildInitialPotholes ⟨d, now₂⟩).map eraseDetected := by
  unfold buildInitialPotholes
  exact mapWithIndex_erase _ _ 0 (genLoop_erase d now₁ now₂ maxAttempts 12345 0 [] [] rfl)

section
attribute [local semireducible] Rat.mul Rat.inv Rat.add Rat.sub

set_option maxRecDepth 40000 in
set_option maxHeartbeats 4000000 in
/-- C1 counterexample: two runs of the generator reading different clocks
produce different record sequences (the detection timestamps differ), so
run-for-run field-by-field equality including the detection timestamp does
not hold. -/
theorem generator_runs_differ :
    buildInitialPotholes ⟨dFar, fun _ => 0⟩ ≠ buildInitialPotholes ⟨dFar, fun _ => 1⟩ := by
  decide

end

end App
